import Mathlib

/-!
Verification of the vitalis primer-design and thermodynamics engine
(`vitalis-core/src/domain/thermodynamics.rs`,
 `vitalis-core/src/domain/thermodynamic_calculator.rs`,
 `vitalis-core/src/services/primer_design.rs`).

Shallow embedding conventions:
* Rust `String` sequences are `List Char`; `&str` table keys stay `String`.
* `f32` arithmetic is modelled as exact rational arithmetic (`ℚ`); the
  transcendental constants the code obtains from `f32::ln` are abstracted
  as rational parameters constrained to intervals containing the true
  logarithm values where a theorem needs them.
* `HashMap` tables with distinct keys are association lists looked up with
  `List.lookup`.
* A panicking slice access is modelled by its bounds-check predicate, and
  the `0.0/0.0` float division producing `NaN` by an `Option` result.
-/

set_option maxRecDepth 100000

set_option maxHeartbeats 2000000

namespace Vitalis

/-! ### Shared base utilities -/

/-- Complement of one base as in `ThermodynamicCalculator::is_palindrome`
(`thermodynamic_calculator.rs:591`): ACGT are complemented, any other
character is passed through unchanged. -/
def complementChar (c : Char) : Char :=
  match c with
  | 'A' => 'T'
  | 'T' => 'A'
  | 'G' => 'C'
  | 'C' => 'G'
  | _ => c

/-- Strict complement as in `reverse_complement_dinucleotide`
(`thermodynamic_calculator.rs:500`): non-ACGT bases are rejected. -/
def complementStrict (c : Char) : Option Char :=
  match c with
  | 'A' => some 'T'
  | 'T' => some 'A'
  | 'G' => some 'C'
  | 'C' => some 'G'
  | _ => none

/-- `ThermodynamicCalculator::is_palindrome` (`thermodynamic_calculator.rs:591`):
a sequence is a palindrome when it equals the complement of its reversal. -/
def isPalindromeCalc (s : List Char) : Bool :=
  decide (s = s.reverse.map complementChar)

/-! ### Thermodynamics database (`thermodynamics.rs`)

`ThermodynamicParams` is the pair `(delta_h, delta_s)` in (kcal/mol,
cal/(mol*K)).  The nearest-neighbor `HashMap` is modelled as an association
list in insertion order; all inserted keys are distinct. -/

/-- Keys inserted by `load_nearest_neighbor_params` (`thermodynamics.rs:180`),
the table used by the `nndb_2024` preset. -/
def nearestNeighborNndb2024 : List (String × ℚ × ℚ) :=
  [ ("AA/TT", (-79/10, -222/10))
  , ("AT/TA", (-72/10, -204/10))
  , ("TA/AT", (-72/10, -213/10))
  , ("CA/GT", (-85/10, -227/10))
  , ("GT/CA", (-84/10, -224/10))
  , ("CT/GA", (-78/10, -210/10))
  , ("GA/CT", (-82/10, -222/10))
  , ("CG/GC", (-106/10, -272/10))
  , ("GC/CG", (-98/10, -244/10))
  , ("GG/CC", (-80/10, -199/10))
  , ("TG/AC", (-84/10, -224/10))
  , ("AC/TG", (-85/10, -227/10))
  , ("AG/TC", (-78/10, -210/10))
  , ("TC/AG", (-82/10, -222/10)) ]

/-- Keys inserted by `load_santalucia_1998_params` (`thermodynamics.rs:320`),
the nearest-neighbor part of the `santalucia_1998` preset (identical values
to the 2024 preset in the source). -/
def nearestNeighborSantalucia1998 : List (String × ℚ × ℚ) :=
  [ ("AA/TT", (-79/10, -222/10))
  , ("AT/TA", (-72/10, -204/10))
  , ("TA/AT", (-72/10, -213/10))
  , ("CA/GT", (-85/10, -227/10))
  , ("GT/CA", (-84/10, -224/10))
  , ("CT/GA", (-78/10, -210/10))
  , ("GA/CT", (-82/10, -222/10))
  , ("CG/GC", (-106/10, -272/10))
  , ("GC/CG", (-98/10, -244/10))
  , ("GG/CC", (-80/10, -199/10))
  , ("TG/AC", (-84/10, -224/10))
  , ("AC/TG", (-85/10, -227/10))
  , ("AG/TC", (-78/10, -210/10))
  , ("TC/AG", (-82/10, -222/10)) ]

/-- `DNAThermodynamicsDatabase::get_nearest_neighbor` (`thermodynamics.rs:133`):
a plain map lookup. -/
def getNearestNeighbor (table : List (String × ℚ × ℚ)) (key : String) :
    Option (ℚ × ℚ) :=
  table.lookup key

/-- Initiation table loaded by `load_initiation_params`
(`thermodynamics.rs:218`); `load_santalucia_1998_params` inserts the same
four entries. -/
def initiationTable : List (String × ℚ × ℚ) :=
  [ ("A", (23/10, 41/10))
  , ("T", (23/10, 41/10))
  , ("G", (1/10, -28/10))
  , ("C", (1/10, -28/10)) ]

/-- `DNAThermodynamicsDatabase::get_initiation` (`thermodynamics.rs:138`). -/
def getInitiation (base : String) : Option (ℚ × ℚ) :=
  initiationTable.lookup base

/-! ### Strict calculator (`thermodynamic_calculator.rs`) -/

/-- Error type `ThermodynamicError` (`thermodynamic_calculator.rs:712`).
The payload of `UnknownDinucleotide` is the offending dinucleotide's
characters. -/
inductive ThermodynamicError
  | sequenceTooShort
  | unknownDinucleotide (d : List Char)
  | unknownBase (c : Char)
  | invalidSequence (s : List Char)
  | zeroEntropy
deriving DecidableEq, Repr

/-- `reverse_complement_dinucleotide` (`thermodynamic_calculator.rs:495`):
complements the second character first, then the first (matching the
evaluation order of the `?` operators in the source). -/
def reverseComplementDinucleotideE (p : Char × Char) :
    Except ThermodynamicError (Char × Char) :=
  match complementStrict p.2 with
  | none => .error (.unknownBase p.2)
  | some a =>
    match complementStrict p.1 with
    | none => .error (.unknownBase p.1)
    | some b => .ok (a, b)

/-- Build the string key `"XY/ZW"` used for nearest-neighbor lookups. -/
def mkNNKey (d rc : Char × Char) : String :=
  String.mk [d.1, d.2, '/', rc.1, rc.2]

/-- `find_dinucleotide_params` (`thermodynamic_calculator.rs:471`): try the
`dinucleotide/reverse_complement` key, then the reverse-ordered key; a
failing reverse-complement means no parameters. -/
def findDinucleotideParams (table : List (String × ℚ × ℚ)) (p : Char × Char) :
    Option (ℚ × ℚ) :=
  match reverseComplementDinucleotideE p with
  | .error _ => none
  | .ok rc =>
    match getNearestNeighbor table (mkNNKey p rc) with
    | some params => some params
    | none => getNearestNeighbor table (mkNNKey rc p)

/-- The list of adjacent dinucleotides of a sequence (the `&seq[i..i+2]`
windows of the loops in the calculator). -/
def dinucPairs (s : List Char) : List (Char × Char) :=
  s.zip s.tail

/-- Initiation contribution of one terminal base: added when the base is in
the initiation table, else zero (the `if let Some(params)` pattern at
`thermodynamic_calculator.rs:236`). -/
def initContribution (c : Char) : ℚ × ℚ :=
  match getInitiation (String.mk [c]) with
  | some params => params
  | none => (0, 0)

/-- Sum of the 5-prime and 3-prime terminal initiation contributions
(`thermodynamic_calculator.rs:236-248`): first character and last character. -/
def initPairSums (s : List Char) : ℚ × ℚ :=
  match s with
  | [] => (0, 0)
  | c :: rest =>
    let f := initContribution c
    let l := initContribution ((c :: rest).getLast (by simp))
    (f.1 + l.1, f.2 + l.2)

/-- The dinucleotide accumulation loop of `calculate_tm_with_conditions`
(`thermodynamic_calculator.rs:251-263`): left-to-right, failing on the first
dinucleotide without parameters. -/
def nnSums (table : List (String × ℚ × ℚ)) :
    List (Char × Char) → Except ThermodynamicError (ℚ × ℚ)
  | [] => .ok (0, 0)
  | p :: rest =>
    match findDinucleotideParams table p with
    | none => .error (.unknownDinucleotide [p.1, p.2])
    | some (dh, ds) =>
      match nnSums table rest with
      | .error e => .error e
      | .ok (h, s) => .ok (dh + h, ds + s)

/-- Total enthalpy/entropy of `calculate_tm_with_conditions` before salt
correction: initiation terms plus the nearest-neighbor loop, on the
uppercased sequence. -/
def strictTotals (table : List (String × ℚ × ℚ)) (s : List Char) :
    Except ThermodynamicError (ℚ × ℚ) :=
  let seq := s.map Char.toUpper
  let init := initPairSums seq
  match nnSums table (dinucPairs seq) with
  | .error e => .error e
  | .ok (dh, ds) => .ok (init.1 + dh, init.2 + ds)

/-- Total monovalent cation molarity of `SaltCorrectionParams::default()`
(`thermodynamics.rs:76`): sodium 0.05 M, potassium and other 0. -/
def saltNaMolarity : ℚ := 5/100

/-- Mg2+ molarity of `SaltCorrectionParams::default()`. -/
def saltMgMolarity : ℚ := 2/1000

/-- `apply_salt_correction` (`thermodynamic_calculator.rs:534`):
`entropy + 0.368 * n * ln(na_molarity)` when the molarity is positive.
`lnNa` abstracts the `f32` value of `na_molarity.ln()`. -/
def applySaltCorrection (lnNa : ℚ) (entropy : ℚ) (n : ℕ) : ℚ :=
  if 0 < saltNaMolarity then entropy + 368/1000 * n * lnNa else entropy

/-- The salt-corrected entropy reached by `calculate_tm_with_conditions`
just before the division (zero when the computation failed earlier and the
point is never reached). -/
def saltCorrectedEntropy (table : List (String × ℚ × ℚ)) (lnNa : ℚ)
    (s : List Char) : ℚ :=
  match strictTotals table s with
  | .error _ => 0
  | .ok (_, ds) => applySaltCorrection lnNa ds s.length

/-- `calculate_tm_with_conditions` (`thermodynamic_calculator.rs:221-275`),
the strict Tm path also exposed as `calculate_tm_nearest_neighbor`
(`thermodynamic_calculator.rs:216`): length guard, initiation terms,
nearest-neighbor accumulation with both key orientations, salt correction,
zero-entropy guard, then `Tm = dH*1000 / dS_corrected - 273.15`. -/
def calculateTmWithConditions (table : List (String × ℚ × ℚ)) (lnNa : ℚ)
    (s : List Char) : Except ThermodynamicError ℚ :=
  if s.length < 2 then .error .sequenceTooShort
  else
    match strictTotals table s with
    | .error e => .error e
    | .ok (dh, ds) =>
      let corrected := applySaltCorrection lnNa ds s.length
      if corrected = 0 then .error .zeroEntropy
      else .ok (dh * 1000 / corrected - 27315/100)

/-! ### `calculate_comprehensive` (`thermodynamic_calculator.rs:111`) -/

/-- `CalculationConditions` (`thermodynamic_calculator.rs:14`). -/
structure CalculationConditions where
  temperatureK : ℚ
  primerConcentration : ℚ
  applySymmetryCorrection : Bool
  molecularCrowding : Bool
  mismatchPenaltyWeight : ℚ
deriving DecidableEq, Repr

/-- `CalculationConditions::default()` (`thermodynamic_calculator.rs:28`). -/
def defaultConditions : CalculationConditions :=
  ⟨31015/100, 1/1000000, true, false, 1⟩

/-- Default conditions with `molecular_crowding` enabled (as in the source's
own `test_molecular_crowding_effect`). -/
def crowdingConditions : CalculationConditions :=
  { defaultConditions with molecularCrowding := true }

/-- The nearest-neighbor loop of `calculate_comprehensive`
(`thermodynamic_calculator.rs:131-151`): the reverse complement of each
dinucleotide is computed with `?` (so a non-ACGT base is an `UnknownBase`
error), then the key `XY/rc` and the alternative key `rc/XY` are tried;
if neither resolves the loop fails with `UnknownDinucleotide`. -/
def comprehensiveNNSums (table : List (String × ℚ × ℚ)) :
    List (Char × Char) → Except ThermodynamicError (ℚ × ℚ)
  | [] => .ok (0, 0)
  | p :: rest =>
    match reverseComplementDinucleotideE p with
    | .error e => .error e
    | .ok rc =>
      match (match getNearestNeighbor table (mkNNKey p rc) with
             | some params => some params
             | none => getNearestNeighbor table (mkNNKey rc p)) with
      | none => .error (.unknownDinucleotide [p.1, p.2])
      | some (dh, ds) =>
        match comprehensiveNNSums table rest with
        | .error e => .error e
        | .ok (h, s) => .ok (dh + h, ds + s)

/-- `apply_advanced_salt_correction` (`thermodynamic_calculator.rs:548`):
Na+/K+ term, Mg2+ term, and a mixed-salt interaction term.  `lnNa`, `lnMg`
and `lnNaMg` abstract the `f32` values of `ln(0.05)`, `ln(0.002)` and
`ln(0.05 * 0.002)` computed by the source. -/
def applyAdvancedSaltCorrection (lnNa lnMg lnNaMg : ℚ) (entropy : ℚ)
    (n : ℕ) : ℚ :=
  let e1 := if 0 < saltNaMolarity then entropy + 368/1000 * n * lnNa else entropy
  let e2 := if 0 < saltMgMolarity then e1 + 175/1000 * n * lnMg else e1
  if 0 < saltNaMolarity ∧ 0 < saltMgMolarity then e2 + 1/10 * n * lnNaMg else e2

/-- The fields of `ComprehensiveThermodynamicResult`
(`thermodynamic_calculator.rs:41`) that the verified claims touch: total
enthalpy, total entropy and the list of applied corrections.  The derived
fields (`delta_g`, `melting_temperature`, `formation_probability`,
`contribution_breakdown`) are pure functions of these and the conditions
and are not modelled. -/
structure ComprehensiveResult where
  deltaH : ℚ
  deltaS : ℚ
  correctionsApplied : List String
deriving DecidableEq, Repr

/-- `calculate_comprehensive` (`thermodynamic_calculator.rs:111-213`):
length guard, nearest-neighbor loop, terminal initiation effects,
optional symmetry correction for palindromic sequences, advanced salt
correction, then the optional molecular-crowding correction which scales
the enthalpy by 1.05 and the entropy by 0.98. -/
def calculateComprehensive (cond : CalculationConditions)
    (table : List (String × ℚ × ℚ)) (lnNa lnMg lnNaMg : ℚ) (s : List Char) :
    Except ThermodynamicError ComprehensiveResult :=
  if s.length < 2 then .error .sequenceTooShort
  else
    let seq := s.map Char.toUpper
    match comprehensiveNNSums table (dinucPairs seq) with
    | .error e => .error e
    | .ok (nnH, nnS) =>
      let init := initPairSums seq
      let totalH := nnH + init.1
      let totalS := nnS + init.2
      let corrections0 := ["terminal_correction"]
      let symm := cond.applySymmetryCorrection && isPalindromeCalc seq
      let totalS1 := if symm then totalS - 14/10 else totalS
      let corrections1 :=
        if symm then corrections0 ++ ["symmetry_correction"] else corrections0
      let totalS2 := applyAdvancedSaltCorrection lnNa lnMg lnNaMg totalS1 seq.length
      let corrections2 := corrections1 ++ ["advanced_salt_correction"]
      if cond.molecularCrowding then
        .ok ⟨totalH * (105/100), totalS2 * (98/100),
             corrections2 ++ ["molecular_crowding"]⟩
      else
        .ok ⟨totalH, totalS2, corrections2⟩

/-! ### `design_primers` region guard and the target slice (C1)

`design_primers` (`primer_design.rs:215`) rejects a region with
`start >= end || end > sequence.len()`; it then immediately evaluates
`&sequence[start..=end]` inside `generate_primer_candidates`
(`primer_design.rs:47`) and later `sequence[start..=end].to_string()`
(`primer_design.rs:319`).  In Rust an inclusive byte-slice `s[a..=b]`
requires `b + 1 <= s.len()` (and `a <= b + 1`) or it panics. -/

/-- The invalid-region guard of `design_primers` (`primer_design.rs:215`). -/
def invalidTargetRegion (seqLen start e : ℕ) : Bool :=
  decide (start ≥ e) || decide (e > seqLen)

/-- Bounds check of the inclusive slice `sequence[start..=end]`
(`primer_design.rs:47` and `primer_design.rs:319`); `false` means the
access panics. -/
def inclusiveSliceInBounds (seqLen start e : ℕ) : Bool :=
  decide (start ≤ e + 1) && decide (e + 1 ≤ seqLen)

/-! ### GC content (C10)

`calculate_gc_content` (`primer_design.rs:331`). -/

/-- Number of G/C characters of the uppercased sequence. -/
def gcCount (s : List Char) : ℕ :=
  (s.map Char.toUpper).countP (fun c => c == 'G' || c == 'C')

/-- `f32` division modelled on `ℚ`: a zero denominator (here only reachable
as `0.0/0.0`) produces `NaN`, modelled as `none`. -/
def floatDiv (a b : ℚ) : Option ℚ :=
  if b = 0 then none else some (a / b)

/-- `calculate_gc_content` (`primer_design.rs:331`):
`(gc_count / sequence.len()) * 100` with no guard for the empty sequence
(`NaN` propagates through the multiplication). -/
def calculateGcContent (s : List Char) : Option ℚ :=
  (floatDiv (gcCount s) s.length).map (fun q => q * 100)

/-! ### Primer design service: alignment scores, pairing, multiplex
(`primer_design.rs`) -/

/-- `PrimerDesignServiceImpl::is_complement` (`primer_design.rs:943`):
case-insensitive Watson-Crick complementarity. -/
def isComplementService (b1 b2 : Char) : Bool :=
  match b1.toUpper, b2.toUpper with
  | 'A', 'T' => true
  | 'T', 'A' => true
  | 'G', 'C' => true
  | 'C', 'G' => true
  | _, _ => false

/-- The inner loop of `calculate_alignment_score` (`primer_design.rs:921-932`)
at one offset: walk `i` over `0..min(s1.len - offset, s2.len)` comparing
`s1[i + offset]` with `s2[i]` — i.e. walk the zip of `s1.drop offset` with
`s2` — subtracting 2 and counting a match for a complementary pair,
subtracting 0.5 for an equal character; returns `(score, matches)`. -/
def alignmentAtOffset (s1 s2 : List Char) (offset : ℕ) : ℚ × ℕ :=
  ((s1.drop offset).zip s2).foldl
    (fun acc c =>
      if isComplementService c.1 c.2 then (acc.1 - 2, acc.2 + 1)
      else if c.1 = c.2 then (acc.1 - 1/2, acc.2)
      else acc)
    (0, 0)

/-- `calculate_alignment_score` (`primer_design.rs:914-940`): slide `s1` over
`s2` for every offset in `0..s1.len`, keeping the most negative score among
offsets with at least 3 complementary matches; the initial best score is 0. -/
def calculateAlignmentScoreService (s1 s2 : List Char) : ℚ :=
  (List.range s1.length).foldl
    (fun best offset =>
      let r := alignmentAtOffset s1 s2 offset
      if 3 ≤ r.2 ∧ r.1 < best then r.1 else best)
    0

/-- `calculate_hetero_dimer` (`primer_design.rs:388`): a direct call to the
alignment score. -/
def calculateHeteroDimerService (p1 p2 : List Char) : ℚ :=
  calculateAlignmentScoreService p1 p2

/-- The fields of `Primer` (`domain/primer.rs:39`) read by pairing and
multiplex evaluation.  The remaining fields (`self_dimer_score`,
`hairpin_score`, `three_prime_stability`, `direction`, quality data) are
not read by the verified paths and are omitted. -/
structure PrimerM where
  sequence : List Char
  position : ℕ
  length : ℕ
  tm : ℚ
  gcContent : ℚ
deriving DecidableEq, Repr

/-- The fields of `PrimerPair` (`domain/primer.rs:59`) read by pairing and
multiplex evaluation; the amplicon sequence, tags, timestamps and
validation flags are omitted.  `id` carries the `Uuid` string used to key
the compatibility matrix. -/
structure PrimerPairM where
  id : String
  forward : PrimerM
  reverse : PrimerM
  ampliconLength : ℕ
deriving DecidableEq, Repr

/-- `is_compatible_pair` (`primer_design.rs:164-195`): reject when
`|Tm_fwd - Tm_rev| > 3.0` or when the hetero-dimer score of the two primer
sequences is below `params.max_hetero_dimer`. -/
def isCompatiblePair (maxHeteroDimer : ℚ) (f r : PrimerM) : Bool :=
  if |f.tm - r.tm| > 3 then false
  else if calculateHeteroDimerService f.sequence r.sequence < maxHeteroDimer then false
  else true

/-- The pair-assembly stage of `design_primers` (`primer_design.rs:236-290`):
every forward candidate against every reverse candidate, keeping compatible
pairs whose amplicon length `max(position) + max(length) - min(position)`
lies in `[100, 3000]`.  The source fills `id` with a fresh UUID; the model
uses the empty string. -/
def assemblePairs (maxHeteroDimer : ℚ) (fwds revs : List PrimerM) :
    List PrimerPairM :=
  fwds.flatMap (fun f =>
    revs.filterMap (fun r =>
      if isCompatiblePair maxHeteroDimer f r then
        let ampStart := min f.position r.position
        let ampEnd := max f.position r.position + max f.length r.length
        let ampLen := ampEnd - ampStart
        if 100 ≤ ampLen ∧ ampLen ≤ 3000 then some ⟨"", f, r, ampLen⟩
        else none
      else none))

/-- The warning messages pushed by the inherent
`analyze_pair_compatibility` (`primer_design.rs:1068-1150`), one constructor
per `warnings.push` site, carrying the two pair ids of the message. -/
inductive MultiplexWarning
  | largeTmDiff (id1 id2 : String)
  | strongCrossReactivity (id1 id2 : String)
  | moderateCrossReactivity (id1 id2 : String)
  | largeAmpliconSizeDiff (id1 id2 : String)
  | largeGcDiff (id1 id2 : String)
deriving DecidableEq, Repr

/-- The inherent `analyze_pair_compatibility` (`primer_design.rs:1068-1150`),
the one selected by Rust method resolution from `evaluate_multiplex`:
penalties of 0.2 for a Tm spread above 5, 0.4/0.2 for strong/moderate
cross-reactivity (the minimum hetero-dimer score over the four
forward/reverse combinations, the `f32::INFINITY` fold start making it the
plain minimum), 0.2 for an amplicon length ratio above 5, 0.1 for a GC
spread above 20; the score is `1 - penalties` floored at 0, returned with
the warnings pushed in source order. -/
def analyzePairCompatibility (p1 p2 : PrimerPairM) : ℚ × List MultiplexWarning :=
  let maxTmDiff := max |p1.forward.tm - p2.forward.tm| |p1.reverse.tm - p2.reverse.tm|
  let tmPart : ℚ × List MultiplexWarning :=
    if maxTmDiff > 5 then (1/5, [.largeTmDiff p1.id p2.id]) else (0, [])
  let minCross :=
    min (min (min
      (calculateHeteroDimerService p1.forward.sequence p2.forward.sequence)
      (calculateHeteroDimerService p1.forward.sequence p2.reverse.sequence))
      (calculateHeteroDimerService p1.reverse.sequence p2.forward.sequence))
      (calculateHeteroDimerService p1.reverse.sequence p2.reverse.sequence)
  let crossPart : ℚ × List MultiplexWarning :=
    if minCross < -8 then (2/5, [.strongCrossReactivity p1.id p2.id])
    else if minCross < -5 then (1/5, [.moderateCrossReactivity p1.id p2.id])
    else (0, [])
  let ratio0 : ℚ := (p1.ampliconLength : ℚ) / (p2.ampliconLength : ℚ)
  let ratio := if ratio0 > 1 then ratio0 else 1 / ratio0
  let ampPart : ℚ × List MultiplexWarning :=
    if ratio > 5 then (1/5, [.largeAmpliconSizeDiff p1.id p2.id]) else (0, [])
  let maxGcDiff :=
    max |p1.forward.gcContent - p2.forward.gcContent|
      |p1.reverse.gcContent - p2.reverse.gcContent|
  let gcPart : ℚ × List MultiplexWarning :=
    if maxGcDiff > 20 then (1/10, [.largeGcDiff p1.id p2.id]) else (0, [])
  (max (1 - (tmPart.1 + crossPart.1 + ampPart.1 + gcPart.1)) 0,
   tmPart.2 ++ crossPart.2 ++ ampPart.2 ++ gcPart.2)

/-- `MultiplexCompatibility` (`domain/primer.rs:102`): the compatibility
matrix (nested `HashMap`s modelled as association lists in insertion
order), the accumulated warnings, and the overall score. -/
structure MultiplexCompatibilityM where
  compatibilityMatrix : List (String × List (String × ℚ))
  warnings : List MultiplexWarning
  overallScore : ℚ
deriving DecidableEq, Repr

/-- `evaluate_multiplex` (`primer_design.rs:393-441`): for every ordered
index pair `(i, j)` with `i ≠ j`, analyze compatibility, recording the
score in row `i` under the id of pair `j`, appending the warnings, and
collecting the scores; the overall score is 1.0 for fewer than two pairs,
otherwise `clamp(avg + 10, 0, 10) / 10`. -/
def evaluateMultiplex (pairs : List PrimerPairM) : MultiplexCompatibilityM :=
  let indexed := pairs.enum
  let matrix := indexed.map (fun ip =>
    (ip.2.id,
      (indexed.filter (fun jq => decide (jq.1 ≠ ip.1))).map
        (fun jq => (jq.2.id, (analyzePairCompatibility ip.2 jq.2).1))))
  let warnings := indexed.flatMap (fun ip =>
    (indexed.filter (fun jq => decide (jq.1 ≠ ip.1))).flatMap
      (fun jq => (analyzePairCompatibility ip.2 jq.2).2))
  let scores := indexed.flatMap (fun ip =>
    (indexed.filter (fun jq => decide (jq.1 ≠ ip.1))).map
      (fun jq => (analyzePairCompatibility ip.2 jq.2).1))
  let overallScore :=
    if scores.length = 0 then 1
    else min (max (scores.sum / scores.length + 10) 0) 10 / 10
  ⟨matrix, warnings, overallScore⟩

/-- Lookup of the score stored at ordered position `(id1, id2)` of the
compatibility matrix. -/
def matrixLookup (m : List (String × List (String × ℚ))) (id1 id2 : String) :
    Option ℚ :=
  (m.lookup id1).bind (fun row => row.lookup id2)

/-! ### Service Tm calculation (C6)

The service-side `calculate_tm_nearest_neighbor` (`primer_design.rs:782-854`)
is a separate, total Tm path: a hard-coded SantaLucia 1998 match table (the
inherent `get_dinucleotide_parameters`, `primer_design.rs:857`), a Wallace
rule for sequences of at most 4 nt, fixed initiation and terminal-AT
corrections, a salt correction of `12.0 * ln(0.05)` on the entropy, and a
final clamp of the Celsius value to `[0, 120]`.  `lnSalt` and `lnCt`
abstract the `f32` values of `(0.05).ln()` and `(250e-9 / 4.0).ln()`. -/

/-- The inherent `get_dinucleotide_parameters` (`primer_design.rs:857-873`;
the trait-level copy at `primer_design.rs:506` is identical): SantaLucia
1998 `(delta_h, delta_s)` per dinucleotide, `(0, 0)` for unknown ones. -/
def getDinucleotideParametersService (p : Char × Char) : ℚ × ℚ :=
  match p with
  | ('A', 'A') => (-79/10, -222/10)
  | ('T', 'T') => (-79/10, -222/10)
  | ('A', 'T') => (-72/10, -204/10)
  | ('T', 'A') => (-72/10, -213/10)
  | ('C', 'A') => (-85/10, -227/10)
  | ('T', 'G') => (-85/10, -227/10)
  | ('G', 'T') => (-84/10, -224/10)
  | ('A', 'C') => (-84/10, -224/10)
  | ('C', 'T') => (-78/10, -210/10)
  | ('A', 'G') => (-78/10, -210/10)
  | ('G', 'A') => (-82/10, -222/10)
  | ('T', 'C') => (-82/10, -222/10)
  | ('C', 'G') => (-106/10, -272/10)
  | ('G', 'C') => (-98/10, -244/10)
  | ('G', 'G') => (-80/10, -199/10)
  | ('C', 'C') => (-80/10, -199/10)
  | _ => (0, 0)

/-- The nearest-neighbor accumulation loop of the service Tm path
(`primer_design.rs:804-809`). -/
def serviceNNSums (seq : List Char) : ℚ × ℚ :=
  (dinucPairs seq).foldl
    (fun acc p =>
      (acc.1 + (getDinucleotideParametersService p).1,
       acc.2 + (getDinucleotideParametersService p).2))
    (0, 0)

/-- Total enthalpy and entropy of the service Tm path before the salt
correction (`primer_design.rs:798-826`): nearest-neighbor sums, the fixed
initiation term `(+0.1, -2.8)`, and `(+2.3, +4.1)` for an A/T first base
and again for an A/T last base.  The sequence is non-empty on this path
(length at least 5), so the `headD`/`getLastD` defaults are unreachable. -/
def serviceTotals (seq : List Char) : ℚ × ℚ :=
  let nn := serviceNNSums seq
  let h0 := nn.1 + 1/10
  let s0 := nn.2 + (-28/10)
  let first := seq.headD 'N'
  let last := seq.getLastD 'N'
  let h1 := if first = 'A' ∨ first = 'T' then h0 + 23/10 else h0
  let s1 := if first = 'A' ∨ first = 'T' then s0 + 41/10 else s0
  let h2 := if last = 'A' ∨ last = 'T' then h1 + 23/10 else h1
  let s2 := if last = 'A' ∨ last = 'T' then s1 + 41/10 else s1
  (h2, s2)

/-- The long-sequence branch of the service Tm path
(`primer_design.rs:828-853`): corrected entropy
`dS + 12 * ln(0.05)`, denominator `dS_corrected + 1.987 * ln(ct/4)`, the
near-zero-denominator fallback of 25, and
`clamp(dH * 1000 / denominator - 273.15, 0, 120)`. -/
def tmServiceLong (lnSalt lnCt : ℚ) (seq : List Char) : ℚ :=
  let denominator := (serviceTotals seq).2 + 12 * lnSalt + 1987/1000 * lnCt
  if |denominator| < 1/1000000 then 25
  else min (max ((serviceTotals seq).1 * 1000 / denominator - 27315/100) 0) 120

/-- The Wallace-rule branch for sequences of at most 4 nt
(`primer_design.rs:788-793`). -/
def wallaceShortTm (s : List Char) : ℚ :=
  let seq := s.map Char.toUpper
  2 * (seq.countP (fun c => c == 'A' || c == 'T') : ℚ)
    + 4 * (seq.countP (fun c => c == 'G' || c == 'C') : ℚ)

/-- The service `calculate_tm_nearest_neighbor` (`primer_design.rs:782-854`):
0 for sequences shorter than 2, Wallace rule up to 4 nt, otherwise the
nearest-neighbor computation on the uppercased sequence. -/
def calculateTmNearestNeighborService (lnSalt lnCt : ℚ) (s : List Char) : ℚ :=
  if s.length < 2 then 0
  else if s.length ≤ 4 then wallaceShortTm s
  else tmServiceLong lnSalt lnCt (s.map Char.toUpper)

/-! ### Concrete inputs for the pairing and multiplex claims -/

/-- Witness forward candidate for the pairing invariants (20 adenines,
position 0). -/
def c2wFwd : PrimerM := ⟨List.replicate 20 'A', 0, 20, 60, 50⟩

/-- Witness reverse candidate (18 adenines, position 150). -/
def c2wRev : PrimerM := ⟨List.replicate 18 'A', 150, 18, 60, 50⟩

/-- The pair produced from the witness candidates. -/
def c2wPair : PrimerPairM := ⟨"", c2wFwd, c2wRev, 170⟩

/-- Counterexample forward candidate: longer (25 nt) than the downstream
reverse candidate, so `max(position) + max(length)` differs from the
maximum end position. -/
def c2xFwd : PrimerM := ⟨List.replicate 25 'A', 0, 25, 60, 50⟩

/-- Counterexample reverse candidate (18 nt at position 150). -/
def c2xRev : PrimerM := ⟨List.replicate 18 'A', 150, 18, 60, 50⟩

/-- The pair produced from the counterexample candidates: the code stores
amplicon length `150 + 25 - 0 = 175`. -/
def c2xPair : PrimerPairM := ⟨"", c2xFwd, c2xRev, 175⟩

/-- First near-identical multiplex pair: forward and reverse are the same
alternating A/T 6-mer; sliding it against the second pair's near-identical
primers at offset 1 pairs every position complementarily. -/
def c5p1 : PrimerPairM :=
  ⟨"pair-1", ⟨"ATATAT".data, 100, 6, 60, 50⟩,
   ⟨"ATATAT".data, 282, 6, 60, 50⟩, 200⟩

/-- Second near-identical multiplex pair: the same 6-mer with the final
base changed. -/
def c5p2 : PrimerPairM :=
  ⟨"pair-2", ⟨"ATATAA".data, 100, 6, 60, 50⟩,
   ⟨"ATATAA".data, 282, 6, 60, 50⟩, 200⟩

/-- Asymmetric-matrix pair 1: all primers `CCCAAA`; sliding `CCCAAA` over
`TTTCCC` reaches three A-T pairs, sliding the other way reaches none. -/
def c8p1 : PrimerPairM :=
  ⟨"m1", ⟨"CCCAAA".data, 0, 6, 60, 50⟩, ⟨"CCCAAA".data, 200, 6, 60, 50⟩, 200⟩

/-- Asymmetric-matrix pair 2: all primers `TTTCCC`. -/
def c8p2 : PrimerPairM :=
  ⟨"m2", ⟨"TTTCCC".data, 0, 6, 60, 50⟩, ⟨"TTTCCC".data, 200, 6, 60, 50⟩, 200⟩

end Vitalis

namespace Vitalis

/-! ### Theorems -/

/-- C1 (code_bug): with a length-10 sequence, `start = 0`, `end = 10`, the
invalid-region guard of `design_primers` accepts the call (`end > len` is
false), yet the inclusive target slice `sequence[start..=end]` evaluated
immediately afterwards is out of bounds, so the call panics instead of
returning a `PrimerDesignResult` as the claim requires at the boundary
`end == length(s)`. -/
theorem c1_boundary_slice_panics :
    invalidTargetRegion 10 0 10 = false ∧ inclusiveSliceInBounds 10 0 10 = false := by
  decide

/-- C3 (code_bug): for the dinucleotide `CA`, whose reverse complement is
`TG`, neither the key `CA/TG` nor the reverse-ordered key `TG/CA` resolves
in either preset: the tables store the complement-format keys `CA/GT` and
`TG/AC` instead, contradicting the key format documented on the
`nearest_neighbor` field and required by the claim. -/
theorem c3_reverse_complement_keys_unresolved :
    reverseComplementDinucleotideE ('C', 'A') = .ok ('T', 'G')
    ∧ getNearestNeighbor nearestNeighborNndb2024 "CA/TG" = none
    ∧ getNearestNeighbor nearestNeighborNndb2024 "TG/CA" = none
    ∧ getNearestNeighbor nearestNeighborSantalucia1998 "CA/TG" = none
    ∧ getNearestNeighbor nearestNeighborSantalucia1998 "TG/CA" = none := by
  exact ⟨rfl, by decide, by decide, by decide, by decide⟩

/-- Every error produced by the nearest-neighbor accumulation loop is an
`unknownDinucleotide` error. -/
theorem nnSums_error_shape (table : List (String × ℚ × ℚ)) :
    ∀ ps e, nnSums table ps = .error e → ∃ d, e = .unknownDinucleotide d := by
  intro ps
  induction ps with
  | nil => intro e h; simp [nnSums] at h
  | cons p rest ih =>
    intro e h
    cases hfind : findDinucleotideParams table p with
    | none =>
      simp [nnSums, hfind] at h
      exact ⟨[p.1, p.2], h.symm⟩
    | some v =>
      obtain ⟨dh, ds⟩ := v
      cases hrest : nnSums table rest with
      | error e2 =>
        simp [nnSums, hfind, hrest] at h
        subst h
        exact ih e2 hrest
      | ok v2 =>
        obtain ⟨hh, ss⟩ := v2
        simp [nnSums, hfind, hrest] at h

/-- The nearest-neighbor accumulation loop fails exactly when some
dinucleotide has no parameters under either key orientation. -/
theorem nnSums_error_exists_iff (table : List (String × ℚ × ℚ)) :
    ∀ ps, (∃ e, nnSums table ps = .error e)
      ↔ ∃ p ∈ ps, findDinucleotideParams table p = none := by
  intro ps
  induction ps with
  | nil => simp [nnSums]
  | cons p rest ih =>
    cases hfind : findDinucleotideParams table p with
    | none =>
      constructor
      · intro _; exact ⟨p, List.mem_cons_self p rest, hfind⟩
      · intro _
        exact ⟨.unknownDinucleotide [p.1, p.2], by simp [nnSums, hfind]⟩
    | some v =>
      obtain ⟨dh, ds⟩ := v
      cases hrest : nnSums table rest with
      | error e2 =>
        constructor
        · intro _
          obtain ⟨q, hq, hqn⟩ := ih.mp ⟨e2, hrest⟩
          exact ⟨q, List.mem_cons_of_mem _ hq, hqn⟩
        · intro _
          exact ⟨e2, by simp [nnSums, hfind, hrest]⟩
      | ok v2 =>
        obtain ⟨hh, ss⟩ := v2
        constructor
        · rintro ⟨e, he⟩
          simp [nnSums, hfind, hrest] at he
        · rintro ⟨q, hq, hqn⟩
          rcases List.mem_cons.mp hq with h1 | h2
          · subst h1; rw [hfind] at hqn; cases hqn
          · obtain ⟨e, he⟩ := ih.mpr ⟨q, h2, hqn⟩
            rw [hrest] at he; cases he

/-- `strictTotals` fails exactly when some adjacent dinucleotide of the
uppercased sequence has no parameters under either key orientation. -/
theorem strictTotals_error_exists_iff (table : List (String × ℚ × ℚ))
    (s : List Char) :
    (∃ e, strictTotals table s = .error e)
      ↔ ∃ p ∈ dinucPairs (s.map Char.toUpper),
          findDinucleotideParams table p = none := by
  rw [← nnSums_error_exists_iff table (dinucPairs (s.map Char.toUpper))]
  cases hnn : nnSums table (dinucPairs (s.map Char.toUpper)) with
  | error e =>
    constructor
    · intro _; exact ⟨e, rfl⟩
    · intro _; exact ⟨e, by simp [strictTotals, hnn]⟩
  | ok v =>
    obtain ⟨dh, ds⟩ := v
    constructor
    · rintro ⟨e, he⟩
      simp [strictTotals, hnn] at he
    · rintro ⟨e, he⟩
      cases he

/-- Errors of `strictTotals` are `unknownDinucleotide` errors. -/
theorem strictTotals_error_shape (table : List (String × ℚ × ℚ))
    (s : List Char) (e : ThermodynamicError)
    (h : strictTotals table s = .error e) :
    ∃ d, e = .unknownDinucleotide d := by
  cases hnn : nnSums table (dinucPairs (s.map Char.toUpper)) with
  | error e2 =>
    have h3 : strictTotals table s = .error e2 := by simp [strictTotals, hnn]
    rw [h] at h3
    injection h3 with h4
    subst h4
    exact nnSums_error_shape table _ _ hnn
  | ok v =>
    obtain ⟨dh, ds⟩ := v
    simp [strictTotals, hnn] at h

/-- A successful `strictTotals` run found parameters for every adjacent
dinucleotide. -/
theorem strictTotals_ok_forall (table : List (String × ℚ × ℚ))
    (s : List Char) (v : ℚ × ℚ) (h : strictTotals table s = .ok v) :
    ∀ p ∈ dinucPairs (s.map Char.toUpper),
      findDinucleotideParams table p ≠ none := by
  intro p hp hnone
  obtain ⟨e, he⟩ := (strictTotals_error_exists_iff table s).mpr ⟨p, hp, hnone⟩
  rw [h] at he
  cases he

/-- A sequence shorter than two characters has no adjacent dinucleotides. -/
theorem dinucPairs_nil_of_short (s : List Char) (h : s.length < 2) :
    dinucPairs (s.map Char.toUpper) = [] := by
  rcases s with _ | ⟨a, _ | ⟨b, t⟩⟩
  · rfl
  · rfl
  · simp at h
    omega

/-- C4 (confirmed): the strict calculator Tm path fails with
`SequenceTooShort` exactly when the sequence has fewer than two characters;
fails with `UnknownDinucleotide` exactly when some adjacent dinucleotide of
the uppercased sequence resolves under neither key orientation; fails with
`ZeroEntropy` exactly when it gets past those checks and the salt-corrected
entropy is exactly zero; and otherwise returns `Ok` with a Celsius Tm.
`table` is the preset nearest-neighbor table and `lnNa` the value of
`ln(0.05)` computed by the source. -/
theorem c4_strict_tm_error_cases (table : List (String × ℚ × ℚ)) (lnNa : ℚ)
    (s : List Char) :
    (calculateTmWithConditions table lnNa s = .error .sequenceTooShort
      ↔ s.length < 2)
    ∧ ((∃ d, calculateTmWithConditions table lnNa s
          = .error (.unknownDinucleotide d))
      ↔ ∃ p ∈ dinucPairs (s.map Char.toUpper),
          findDinucleotideParams table p = none)
    ∧ (calculateTmWithConditions table lnNa s = .error .zeroEntropy
      ↔ 2 ≤ s.length
        ∧ (∀ p ∈ dinucPairs (s.map Char.toUpper),
            findDinucleotideParams table p ≠ none)
        ∧ saltCorrectedEntropy table lnNa s = 0)
    ∧ ((∃ t, calculateTmWithConditions table lnNa s = .ok t)
      ↔ 2 ≤ s.length
        ∧ (∀ p ∈ dinucPairs (s.map Char.toUpper),
            findDinucleotideParams table p ≠ none)
        ∧ saltCorrectedEntropy table lnNa s ≠ 0) := by
  by_cases hlen : s.length < 2
  · have hdp := dinucPairs_nil_of_short s hlen
    have hres : calculateTmWithConditions table lnNa s = .error .sequenceTooShort := by
      simp [calculateTmWithConditions, hlen]
    refine ⟨iff_of_true hres hlen, ?_, ?_, ?_⟩
    · rw [hdp]
      constructor
      · rintro ⟨d, hd⟩
        rw [hres] at hd
        simp at hd
      · rintro ⟨p, hp, _⟩
        cases hp
    · constructor
      · intro h
        rw [hres] at h
        simp at h
      · rintro ⟨h2, _, _⟩
        omega
    · constructor
      · rintro ⟨t, ht⟩
        rw [hres] at ht
        cases ht
      · rintro ⟨h2, _, _⟩
        omega
  · have h2 : 2 ≤ s.length := by omega
    cases hst : strictTotals table s with
    | error e =>
      obtain ⟨d, hd⟩ := strictTotals_error_shape table s e hst
      subst hd
      have hres : calculateTmWithConditions table lnNa s
          = .error (.unknownDinucleotide d) := by
        simp [calculateTmWithConditions, hlen, hst]
      have hmiss : ∃ p ∈ dinucPairs (s.map Char.toUpper),
          findDinucleotideParams table p = none :=
        (strictTotals_error_exists_iff table s).mp ⟨_, hst⟩
      refine ⟨?_, ?_, ?_, ?_⟩
      · rw [hres]; simp; omega
      · exact iff_of_true ⟨d, hres⟩ hmiss
      · rw [hres]
        constructor
        · intro h; simp at h
        · rintro ⟨_, hall, _⟩
          obtain ⟨p, hp, hpn⟩ := hmiss
          exact absurd hpn (hall p hp)
      · rw [hres]
        constructor
        · rintro ⟨t, ht⟩; cases ht
        · rintro ⟨_, hall, _⟩
          obtain ⟨p, hp, hpn⟩ := hmiss
          exact absurd hpn (hall p hp)
    | ok v =>
      obtain ⟨dh, ds⟩ := v
      have hall := strictTotals_ok_forall table s (dh, ds) hst
      have hsce : saltCorrectedEntropy table lnNa s
          = applySaltCorrection lnNa ds s.length := by
        simp [saltCorrectedEntropy, hst]
      by_cases hc : applySaltCorrection lnNa ds s.length = 0
      · have hres : calculateTmWithConditions table lnNa s = .error .zeroEntropy := by
          simp [calculateTmWithConditions, hlen, hst, hc]
        refine ⟨?_, ?_, ?_, ?_⟩
        · rw [hres]; simp; omega
        · rw [hres]
          constructor
          · rintro ⟨d, hd⟩; simp at hd
          · rintro ⟨p, hp, hpn⟩
            exact absurd hpn (hall p hp)
        · exact iff_of_true hres ⟨h2, hall, by rw [hsce]; exact hc⟩
        · rw [hres]
          constructor
          · rintro ⟨t, ht⟩; cases ht
          · rintro ⟨_, _, hnz⟩
            rw [hsce] at hnz
            exact absurd hc hnz
      · have hres : calculateTmWithConditions table lnNa s
            = .ok (dh * 1000 / applySaltCorrection lnNa ds s.length - 27315/100) := by
          simp [calculateTmWithConditions, hlen, hst, hc]
        refine ⟨?_, ?_, ?_, ?_⟩
        · rw [hres]; simp; omega
        · rw [hres]
          constructor
          · rintro ⟨d, hd⟩; cases hd
          · rintro ⟨p, hp, hpn⟩
            exact absurd hpn (hall p hp)
        · rw [hres]
          constructor
          · intro h; cases h
          · rintro ⟨_, _, hz⟩
            rw [hsce] at hz
            exact absurd hz hc
        · exact iff_of_true ⟨_, hres⟩ ⟨h2, hall, by rw [hsce]; exact hc⟩

/-- C7 (code_bug): on the source's own molecular-crowding test input
`"ATGCATGC"` (`test_molecular_crowding_effect`), `calculate_comprehensive`
returns `UnknownDinucleotide("AT")` both with and without crowding enabled,
for every value of the salt-correction logarithms: the table stores the
complement-format key `AT/TA` while the lookup tries `AT/AT` in both
orientations, so no `delta_h` is ever produced and the claimed comparison
cannot hold. -/
theorem c7_crowding_errors_on_own_test_input (lnNa lnMg lnNaMg : ℚ) :
    calculateComprehensive crowdingConditions nearestNeighborNndb2024
        lnNa lnMg lnNaMg "ATGCATGC".data
      = .error (.unknownDinucleotide ['A', 'T'])
    ∧ calculateComprehensive defaultConditions nearestNeighborNndb2024
        lnNa lnMg lnNaMg "ATGCATGC".data
      = .error (.unknownDinucleotide ['A', 'T']) := by
  constructor <;> rfl

/-- A pair accepted by `is_compatible_pair` has Tm spread at most 3 and a
hetero-dimer score at least the configured threshold. -/
theorem isCompatiblePair_spec (mh : ℚ) (f r : PrimerM)
    (h : isCompatiblePair mh f r = true) :
    |f.tm - r.tm| ≤ 3
    ∧ mh ≤ calculateHeteroDimerService f.sequence r.sequence := by
  by_cases h1 : |f.tm - r.tm| > 3
  · simp [isCompatiblePair, h1] at h
  · by_cases h2 : calculateHeteroDimerService f.sequence r.sequence < mh
    · simp [isCompatiblePair, h1, h2] at h
    · exact ⟨not_lt.mp h1, not_lt.mp h2⟩

/-- C2 (corrected): every pair surviving the pairing stage has a Tm spread
of at most 3 degrees, a hetero-dimer score at least `max_hetero_dimer`, an
amplicon length in `[100, 3000]`, and an amplicon length equal to
`max(position) + max(length) - min(position)` (the quantity the code
computes, which differs from `max(end positions) - min(start positions)`
when the downstream primer is the shorter one). -/
theorem c2_surviving_pair_invariants (mh : ℚ) (fwds revs : List PrimerM)
    (p : PrimerPairM) (hp : p ∈ assemblePairs mh fwds revs) :
    |p.forward.tm - p.reverse.tm| ≤ 3
    ∧ mh ≤ calculateHeteroDimerService p.forward.sequence p.reverse.sequence
    ∧ 100 ≤ p.ampliconLength ∧ p.ampliconLength ≤ 3000
    ∧ p.ampliconLength
        = max p.forward.position p.reverse.position
          + max p.forward.length p.reverse.length
          - min p.forward.position p.reverse.position := by
  simp only [assemblePairs, List.mem_flatMap, List.mem_filterMap] at hp
  obtain ⟨f, hf, r, hr, hcond⟩ := hp
  by_cases hcompat : isCompatiblePair mh f r = true
  · rw [if_pos hcompat] at hcond
    by_cases hamp : 100 ≤ max f.position r.position + max f.length r.length
        - min f.position r.position
        ∧ max f.position r.position + max f.length r.length
          - min f.position r.position ≤ 3000
    · rw [if_pos hamp] at hcond
      injection hcond with hcond
      subst hcond
      obtain ⟨ht, hh⟩ := isCompatiblePair_spec mh f r hcompat
      exact ⟨ht, hh, hamp.1, hamp.2, rfl⟩
    · rw [if_neg hamp] at hcond
      cases hcond
  · rw [if_neg hcompat] at hcond
    cases hcond

/-- Evaluation of the pairing stage on the witness candidates: the single
compatible combination survives with amplicon length 170. -/
theorem c2w_assemble : assemblePairs (-1000) [c2wFwd] [c2wRev] = [c2wPair] := by
  norm_num +decide [assemblePairs, isCompatiblePair, calculateHeteroDimerService,
    calculateAlignmentScoreService, alignmentAtOffset, isComplementService,
    c2wFwd, c2wRev, c2wPair, List.foldl, List.filterMap_cons, List.flatMap_cons,
    List.flatMap_nil, List.filterMap_nil]

/-- C2 witness: a concrete compatible forward/reverse candidate pair whose
assembled pair satisfies the invariants. -/
theorem c2_surviving_pair_invariants_witness :
    c2wPair ∈ assemblePairs (-1000) [c2wFwd] [c2wRev]
    ∧ |c2wPair.forward.tm - c2wPair.reverse.tm| ≤ 3
    ∧ c2wPair.ampliconLength
        = max c2wPair.forward.position c2wPair.reverse.position
          + max c2wPair.forward.length c2wPair.reverse.length
          - min c2wPair.forward.position c2wPair.reverse.position := by
  have hmem : c2wPair ∈ assemblePairs (-1000) [c2wFwd] [c2wRev] := by
    rw [c2w_assemble]
    exact List.mem_singleton.mpr rfl
  have h := c2_surviving_pair_invariants (-1000) [c2wFwd] [c2wRev] c2wPair hmem
  exact ⟨hmem, h.1, h.2.2.2.2⟩

/-- Evaluation of the pairing stage on the counterexample candidates. -/
theorem c2x_assemble : assemblePairs (-1000) [c2xFwd] [c2xRev] = [c2xPair] := by
  norm_num +decide [assemblePairs, isCompatiblePair, calculateHeteroDimerService,
    calculateAlignmentScoreService, alignmentAtOffset, isComplementService,
    c2xFwd, c2xRev, c2xPair, List.foldl, List.filterMap_cons, List.flatMap_cons,
    List.flatMap_nil, List.filterMap_nil]

/-- C2 counterexample: a surviving pair whose stored `amplicon_length`
(175) differs from `max(end positions) - min(start positions)` (168): the
forward primer is 25 nt at position 0, the reverse 18 nt at position 150,
so the code's `max(position) + max(length)` mixes the reverse position with
the forward length. -/
theorem c2_amplicon_formula_counterexample :
    c2xPair ∈ assemblePairs (-1000) [c2xFwd] [c2xRev]
    ∧ c2xPair.ampliconLength = 175
    ∧ max (c2xPair.forward.position + c2xPair.forward.length)
        (c2xPair.reverse.position + c2xPair.reverse.length)
        - min c2xPair.forward.position c2xPair.reverse.position = 168
    ∧ (175 : ℕ) ≠ 168 := by
  refine ⟨?_, by norm_num [c2xPair], ?_, by norm_num⟩
  · rw [c2x_assemble]
    exact List.mem_singleton.mpr rfl
  · norm_num [c2xPair, c2xFwd, c2xRev]

/-- Evaluation of the multiplex warnings on the two near-identical pairs:
both ordered directions report strong cross-reactivity. -/
theorem c5_warnings_eval : (evaluateMultiplex [c5p1, c5p2]).warnings
    = [.strongCrossReactivity "pair-1" "pair-2",
       .strongCrossReactivity "pair-2" "pair-1"] := by
  norm_num +decide [evaluateMultiplex, analyzePairCompatibility,
    calculateHeteroDimerService, calculateAlignmentScoreService,
    alignmentAtOffset, isComplementService, c5p1, c5p2, List.enum,
    List.enumFrom, List.filter_cons, List.filter_nil, List.flatMap_cons,
    List.flatMap_nil, List.foldl, min_def, max_def]

/-- Evaluation of the overall multiplex score on the two near-identical
pairs: both ordered scores are 0.6, and the rescaling clamps the average
to 1. -/
theorem c5_overall_eval :
    (evaluateMultiplex [c5p1, c5p2]).overallScore = 1 := by
  norm_num +decide [evaluateMultiplex, analyzePairCompatibility,
    calculateHeteroDimerService, calculateAlignmentScoreService,
    alignmentAtOffset, isComplementService, c5p1, c5p2, List.enum,
    List.enumFrom, List.filter_cons, List.filter_nil, List.flatMap_cons,
    List.flatMap_nil, List.foldl, min_def, max_def]

/-- C5 (corrected): `evaluate_multiplex` on any single pair returns
`overall_score = 1` and no warnings; on the two near-identical pairs it
reports at least one warning, but the overall score is again exactly 1 (the
per-pair scores lie in `[0, 1]`, so `clamp(avg + 10, 0, 10) / 10` is always
1), not strictly lower as claimed. -/
theorem c5_multiplex_single_and_near_identical (p : PrimerPairM) :
    ((evaluateMultiplex [p]).overallScore = 1
      ∧ (evaluateMultiplex [p]).warnings = [])
    ∧ (evaluateMultiplex [c5p1, c5p2]).warnings ≠ []
    ∧ (evaluateMultiplex [c5p1, c5p2]).overallScore = 1 := by
  refine ⟨⟨rfl, rfl⟩, ?_, c5_overall_eval⟩
  rw [c5_warnings_eval]
  simp

/-- C5 counterexample: on the two near-identical pairs the overall score
equals the single-pair score (both are 1), so it is not strictly lower,
even though cross-reactivity warnings are present. -/
theorem c5_overall_score_not_lower :
    (evaluateMultiplex [c5p1, c5p2]).warnings ≠ []
    ∧ ¬ ((evaluateMultiplex [c5p1, c5p2]).overallScore
          < (evaluateMultiplex [c5p1]).overallScore) := by
  constructor
  · rw [c5_warnings_eval]
    simp
  · rw [c5_overall_eval,
      show (evaluateMultiplex [c5p1]).overallScore = 1 from rfl]
    exact lt_irrefl 1

/-- Association-list lookup of a keyed map at the key of a member, when the
keys are distinct. -/
theorem lookup_keyed_map_of_nodup {α β : Type} (key : α → String) (f : α → β) :
    ∀ l : List α, (l.map key).Nodup → ∀ a ∈ l,
      (l.map (fun x => (key x, f x))).lookup (key a) = some (f a) := by
  intro l
  induction l with
  | nil => intro _ a ha; cases ha
  | cons b t ih =>
    intro hnd a ha
    rw [List.map_cons, List.nodup_cons] at hnd
    obtain ⟨hb, ht⟩ := hnd
    rcases List.mem_cons.mp ha with h1 | h2
    · subst h1
      simp [List.lookup]
    · have hne : (key a == key b) = false := by
        apply beq_eq_false_iff_ne.mpr
        intro he
        exact hb (he ▸ List.mem_map_of_mem key h2)
      rw [List.map_cons, List.lookup, hne]
      exact ih ht a h2

/-- C8 (corrected): for pairs with distinct ids, the compatibility matrix
holds an entry for every ordered index pair `(i, j)` with `i ≠ j`, and the
entry is the `analyze_pair_compatibility` score of `(pairs[i], pairs[j])`
in that order.  (Symmetry fails, see the counterexample: the underlying
alignment score is direction-dependent.) -/
theorem c8_matrix_has_all_ordered_entries (pairs : List PrimerPairM)
    (hnd : (pairs.map PrimerPairM.id).Nodup)
    (i j : ℕ) (hi : i < pairs.length) (hj : j < pairs.length) (hij : i ≠ j) :
    matrixLookup (evaluateMultiplex pairs).compatibilityMatrix
        pairs[i].id pairs[j].id
      = some (analyzePairCompatibility pairs[i] pairs[j]).1 := by
  have hndE : (pairs.enum.map (fun ip : ℕ × PrimerPairM => ip.2.id)).Nodup := by
    have hmm : pairs.enum.map (fun ip : ℕ × PrimerPairM => ip.2.id)
        = (pairs.enum.map Prod.snd).map PrimerPairM.id := by
      rw [List.map_map]; rfl
    rw [hmm, List.enum_map_snd]
    exact hnd
  have hiE : i < pairs.enum.length := by rw [List.enum_length]; exact hi
  have hjE : j < pairs.enum.length := by rw [List.enum_length]; exact hj
  have hgetI : pairs.enum[i] = (i, pairs[i]) := List.getElem_enum pairs i hiE
  have hgetJ : pairs.enum[j] = (j, pairs[j]) := List.getElem_enum pairs j hjE
  have hmemI : ((i, pairs[i]) : ℕ × PrimerPairM) ∈ pairs.enum := by
    rw [← hgetI]; exact List.getElem_mem hiE
  have hmemJ : ((j, pairs[j]) : ℕ × PrimerPairM) ∈ pairs.enum := by
    rw [← hgetJ]; exact List.getElem_mem hjE
  have houter := lookup_keyed_map_of_nodup
    (fun ip : ℕ × PrimerPairM => ip.2.id)
    (fun ip : ℕ × PrimerPairM =>
      (pairs.enum.filter (fun jq => decide (jq.1 ≠ ip.1))).map
        (fun jq => (jq.2.id, (analyzePairCompatibility ip.2 jq.2).1)))
    pairs.enum hndE (i, pairs[i]) hmemI
  have hsub : List.Sublist
      ((pairs.enum.filter (fun jq => decide (jq.1 ≠ i))).map
        (fun ip : ℕ × PrimerPairM => ip.2.id))
      (pairs.enum.map (fun ip : ℕ × PrimerPairM => ip.2.id)) :=
    List.Sublist.map (fun ip : ℕ × PrimerPairM => ip.2.id)
      (List.filter_sublist pairs.enum)
  have hndF : ((pairs.enum.filter (fun jq => decide (jq.1 ≠ i))).map
      (fun ip : ℕ × PrimerPairM => ip.2.id)).Nodup := hndE.sublist hsub
  have hmemF : ((j, pairs[j]) : ℕ × PrimerPairM)
      ∈ pairs.enum.filter (fun jq => decide (jq.1 ≠ i)) := by
    apply List.mem_filter.mpr
    refine ⟨hmemJ, ?_⟩
    simp only [decide_eq_true_eq]
    exact fun he => hij he.symm
  have hinner := lookup_keyed_map_of_nodup
    (fun ip : ℕ × PrimerPairM => ip.2.id)
    (fun jq : ℕ × PrimerPairM => (analyzePairCompatibility pairs[i] jq.2).1)
    (pairs.enum.filter (fun jq => decide (jq.1 ≠ i))) hndF (j, pairs[j]) hmemF
  have houter2 : List.lookup pairs[i].id
      (pairs.enum.map (fun ip =>
        (ip.2.id,
          (pairs.enum.filter (fun jq => decide (jq.1 ≠ ip.1))).map
            (fun jq => (jq.2.id, (analyzePairCompatibility ip.2 jq.2).1)))))
      = some ((pairs.enum.filter (fun jq => decide (jq.1 ≠ i))).map
          (fun jq => (jq.2.id, (analyzePairCompatibility pairs[i] jq.2).1))) :=
    houter
  have hinner2 : List.lookup pairs[j].id
      ((pairs.enum.filter (fun jq => decide (jq.1 ≠ i))).map
        (fun jq => (jq.2.id, (analyzePairCompatibility pairs[i] jq.2).1)))
      = some (analyzePairCompatibility pairs[i] pairs[j]).1 :=
    hinner
  simp only [evaluateMultiplex, matrixLookup]
  rw [houter2]
  simp only [Option.some_bind]
  exact hinner2

/-- C8 witness: the two concrete pairs have distinct ids and the matrix
entry at `(m1, m2)` is the ordered compatibility score. -/
theorem c8_matrix_has_all_ordered_entries_witness :
    ([c8p1, c8p2].map PrimerPairM.id).Nodup
    ∧ matrixLookup (evaluateMultiplex [c8p1, c8p2]).compatibilityMatrix
        c8p1.id c8p2.id
      = some (analyzePairCompatibility c8p1 c8p2).1 := by
  refine ⟨by decide, ?_⟩
  exact c8_matrix_has_all_ordered_entries [c8p1, c8p2] (by decide) 0 1
    (by decide) (by decide) (by decide)

/-- Evaluation of the compatibility matrix on the asymmetric pairs. -/
theorem c8_matrix_eval : (evaluateMultiplex [c8p1, c8p2]).compatibilityMatrix
    = [("m1", [("m2", 4/5)]), ("m2", [("m1", 1)])] := by
  norm_num +decide [evaluateMultiplex, analyzePairCompatibility,
    calculateHeteroDimerService, calculateAlignmentScoreService,
    alignmentAtOffset, isComplementService, c8p1, c8p2, List.enum,
    List.enumFrom, List.filter_cons, List.filter_nil, List.flatMap_cons,
    List.flatMap_nil, List.foldl, min_def, max_def]

/-- C8 counterexample: the matrix is not symmetric: with the concrete pairs
`m1` (all primers `CCCAAA`) and `m2` (all primers `TTTCCC`) the entry at
`(m1, m2)` is 0.8 (a moderate cross-reactivity penalty: sliding `CCCAAA`
over `TTTCCC` aligns three A-T pairs for a score of -6) while the entry at
`(m2, m1)` is 1 (no offset of `TTTCCC` over `CCCAAA` reaches three
complementary matches). -/
theorem c8_matrix_not_symmetric :
    matrixLookup (evaluateMultiplex [c8p1, c8p2]).compatibilityMatrix
        "m1" "m2" = some (4/5)
    ∧ matrixLookup (evaluateMultiplex [c8p1, c8p2]).compatibilityMatrix
        "m2" "m1" = some 1
    ∧ ((4:ℚ)/5) ≠ 1 := by
  refine ⟨?_, ?_, by norm_num⟩
  · unfold matrixLookup
    rw [c8_matrix_eval]
    norm_num +decide [List.lookup]
  · unfold matrixLookup
    rw [c8_matrix_eval]
    norm_num +decide [List.lookup]

/-- Evaluation of the pre-salt totals of the GC-rich test sequence:
6 GC and 5 CG stacks plus the initiation term, no terminal-AT bonus. -/
theorem serviceTotals_gcSeq :
    serviceTotals ("GCGCGCGCGCGC".data.map Char.toUpper)
      = (-1117/10, -2852/10) := by
  norm_num +decide [serviceTotals, serviceNNSums, dinucPairs,
    getDinucleotideParametersService, List.foldl,
    show 'G'.toUpper = 'G' from by decide, show 'C'.toUpper = 'C' from by decide]

/-- Evaluation of the pre-salt totals of the AT-rich test sequence:
4 AT, 4 TA and 3 AA stacks plus initiation and both terminal-AT bonuses. -/
theorem serviceTotals_atSeq :
    serviceTotals ("ATATATATAAAA".data.map Char.toUpper)
      = (-766/10, -2280/10) := by
  norm_num +decide [serviceTotals, serviceNNSums, dinucPairs,
    getDinucleotideParametersService, List.foldl,
    show 'A'.toUpper = 'A' from by decide, show 'T'.toUpper = 'T' from by decide]

/-- C6 (confirmed): for every value of the two logarithm constants inside
intervals containing the true values (`ln 0.05 ≈ -2.9957` in `[-3, -2.9]`
and `ln 6.25e-8 ≈ -16.588` in `[-17, -16.5]`), the service
`calculate_tm_nearest_neighbor` returns a strictly higher Tm on
`GCGCGCGCGCGC` than on `ATATATATAAAA` (the AT-rich Tm clamps to 0, the
GC-rich Tm is about 42), and both values lie in `[0, 120]`. -/
theorem c6_gc_rich_higher_tm (lnSalt lnCt : ℚ)
    (h1 : -3 ≤ lnSalt) (h2 : lnSalt ≤ -29/10)
    (h3 : -17 ≤ lnCt) (h4 : lnCt ≤ -33/2) :
    calculateTmNearestNeighborService lnSalt lnCt "GCGCGCGCGCGC".data
      > calculateTmNearestNeighborService lnSalt lnCt "ATATATATAAAA".data
    ∧ 0 ≤ calculateTmNearestNeighborService lnSalt lnCt "GCGCGCGCGCGC".data
    ∧ calculateTmNearestNeighborService lnSalt lnCt "GCGCGCGCGCGC".data ≤ 120
    ∧ 0 ≤ calculateTmNearestNeighborService lnSalt lnCt "ATATATATAAAA".data
    ∧ calculateTmNearestNeighborService lnSalt lnCt "ATATATATAAAA".data ≤ 120 := by
  have hEqGC : calculateTmNearestNeighborService lnSalt lnCt "GCGCGCGCGCGC".data
      = tmServiceLong lnSalt lnCt ("GCGCGCGCGCGC".data.map Char.toUpper) := by
    norm_num [calculateTmNearestNeighborService]
  have hEqAT : calculateTmNearestNeighborService lnSalt lnCt "ATATATATAAAA".data
      = tmServiceLong lnSalt lnCt ("ATATATATAAAA".data.map Char.toUpper) := by
    norm_num [calculateTmNearestNeighborService]
  rw [hEqGC, hEqAT]
  unfold tmServiceLong
  rw [serviceTotals_gcSeq, serviceTotals_atSeq]
  norm_num
  have hdGCneg : -(1426/5 : ℚ) + 12 * lnSalt + 1987/1000 * lnCt < 0 := by nlinarith
  have hdATneg : (-228 : ℚ) + 12 * lnSalt + 1987/1000 * lnCt < 0 := by nlinarith
  have hgGC : ¬ |-(1426/5 : ℚ) + 12 * lnSalt + 1987/1000 * lnCt| < 1/1000000 := by
    rw [not_lt, abs_of_nonpos (le_of_lt hdGCneg)]
    nlinarith
  have hgAT : ¬ |(-228 : ℚ) + 12 * lnSalt + 1987/1000 * lnCt| < 1/1000000 := by
    rw [not_lt, abs_of_nonpos (le_of_lt hdATneg)]
    nlinarith
  rw [if_neg hgGC, if_neg hgAT]
  have hyneg : (-76600 : ℚ) / (-228 + 12 * lnSalt + 1987/1000 * lnCt)
      - 5463/20 ≤ 0 := by
    rw [sub_nonpos, div_le_iff_of_neg hdATneg]
    nlinarith
  have hxpos : (0:ℚ) < -111700 / (-(1426/5) + 12 * lnSalt + 1987/1000 * lnCt)
      - 5463/20 := by
    rw [lt_sub_iff_add_lt, zero_add, lt_div_iff_of_neg hdGCneg]
    nlinarith
  have hxlt : (-111700 : ℚ) / (-(1426/5) + 12 * lnSalt + 1987/1000 * lnCt)
      - 5463/20 < 120 := by
    rw [sub_lt_iff_lt_add, div_lt_iff_of_neg hdGCneg]
    nlinarith
  rw [max_eq_right hyneg, max_eq_left (le_of_lt hxpos),
    min_eq_left (by norm_num : (0:ℚ) ≤ 120), min_eq_left (le_of_lt hxlt)]
  exact ⟨hxpos, le_of_lt hxpos, le_of_lt hxlt, le_refl 0, by norm_num⟩

/-- C6 witness: the concrete admissible constants `lnSalt = -2.95` and
`lnCt = -16.6` satisfy the interval hypotheses and give the strict Tm
comparison. -/
theorem c6_gc_rich_higher_tm_witness :
    ((-3 : ℚ) ≤ -59/20 ∧ (-59/20 : ℚ) ≤ -29/10
      ∧ (-17 : ℚ) ≤ -83/5 ∧ (-83/5 : ℚ) ≤ -33/2)
    ∧ calculateTmNearestNeighborService (-59/20) (-83/5) "GCGCGCGCGCGC".data
      > calculateTmNearestNeighborService (-59/20) (-83/5) "ATATATATAAAA".data := by
  refine ⟨by norm_num, ?_⟩
  exact (c6_gc_rich_higher_tm (-59/20) (-83/5) (by norm_num) (by norm_num)
    (by norm_num) (by norm_num)).1

/-- C9 counterexample: `is_palindrome("ACGTACGT")` returns `true`, not
`false` as claimed: the sequence equals the complement of its reversal. -/
theorem c9_acgtacgt_is_palindrome :
    isPalindromeCalc "ACGTACGT".data = true := by
  decide

/-- C9 (corrected): `is_palindrome("GAATTC")` and `is_palindrome("ACGTACGT")`
both return `true` under the implementation's definition (a sequence equals
the complement of its reversal). -/
theorem c9_palindrome_values :
    isPalindromeCalc "GAATTC".data = true ∧ isPalindromeCalc "ACGTACGT".data = true := by
  decide

/-- C10 (confirmed): on a non-empty sequence `calculate_gc_content` returns
`(count of G or C after uppercasing) / length * 100`, a value in `[0, 100]`;
on the empty sequence the division is `0.0/0.0` and the result is `NaN`
(modelled `none`), not a percentage. -/
theorem c10_gc_content_division (s : List Char) (h : s ≠ []) :
    calculateGcContent s = some ((gcCount s : ℚ) / s.length * 100)
    ∧ (∀ q, calculateGcContent s = some q → 0 ≤ q ∧ q ≤ 100)
    ∧ calculateGcContent [] = none := by
  have hlen : (0:ℚ) < s.length := by
    have : 0 < s.length := List.length_pos.mpr h
    exact_mod_cast this
  have hne : (s.length : ℚ) ≠ 0 := ne_of_gt hlen
  have hcount : gcCount s ≤ s.length := by
    have := List.countP_le_length (fun c => c == 'G' || c == 'C')
      (l := s.map Char.toUpper)
    simpa [gcCount] using this
  refine ⟨?_, ?_, ?_⟩
  · simp [calculateGcContent, floatDiv, hne]
  · intro q hq
    have hq' : q = (gcCount s : ℚ) / s.length * 100 := by
      simp [calculateGcContent, floatDiv, hne] at hq
      exact hq.symm
    constructor
    · rw [hq']
      positivity
    · rw [hq']
      have hdiv : (gcCount s : ℚ) / s.length ≤ 1 := by
        rw [div_le_one hlen]
        exact_mod_cast hcount
      nlinarith
  · simp [calculateGcContent, floatDiv]

/-- C10 witness: the non-empty sequence `ATGC` evaluates as the theorem
states. -/
theorem c10_gc_content_division_witness :
    ("ATGC".data ≠ ([] : List Char))
    ∧ calculateGcContent "ATGC".data = some ((gcCount "ATGC".data : ℚ) / ("ATGC".data : List Char).length * 100) := by
  refine ⟨by decide, ?_⟩
  exact (c10_gc_content_division "ATGC".data (by decide)).1

end Vitalis
